import Mathlib

set_option autoImplicit false

/-!
Verification of the streaming chat-completion pipeline of
`llama_toolchain/inference/meta_reference/inference.py`
(`MetaReferenceInferenceImpl.chat_completion`).

The generator is embedded shallowly: text is `List Char`, the per-token
loop body is the step function `processToken` on an explicit `LoopState`,
a whole session is a `List.foldl` over the fragments yielded by the
(opaque) generation engine, and the values yielded by the Python
generator are collected in order into a `List Chunk`.  The model
resolver and the final-message decoder are opaque collaborators and are
passed in as function arguments.
-/

namespace LlamaStack

/-- Text fragments are modelled as lists of characters. -/
abbrev Str := List Char

/-- The tool-call sentinel, `"<|python_tag|>"` (inference.py line 110). -/
def pythonTag : Str := "<|python_tag|>".toList

/-- The end-of-turn marker, `"<|eot_id|>"` (inference.py line 130). -/
def eotId : Str := "<|eot_id|>".toList

/-- The end-of-message marker, `"<|eom_id|>"` (inference.py line 133). -/
def eomId : Str := "<|eom_id|>".toList

/-- `StopReason` from `llama_models.llama3_1.api.datatypes`. -/
inductive StopReason
  | end_of_turn
  | end_of_message
  | out_of_tokens
deriving DecidableEq, Repr

/-- One step of the generation engine: decoded text fragment, token id,
optional log-probability (an opaque numeric payload, carried but never
computed with by the pipeline). -/
structure TokenResult where
  text : Str
  token : Nat
  logprob : Option Int
deriving DecidableEq, Repr

/-- A parsed tool call, opaque to the pipeline (only carried into
`success` deltas). -/
abbrev ToolCall := Nat

/-- `ToolCallParseStatus` from the inference API. -/
inductive ToolCallParseStatus
  | started
  | in_progress
  | success
  | failure
deriving DecidableEq, Repr

/-- The `content` field of a `ToolCallDelta`: either raw text or a parsed
tool call. -/
inductive DeltaContent
  | str (s : Str)
  | call (c : ToolCall)
deriving DecidableEq, Repr

/-- The `delta` of a response event: plain text or a `ToolCallDelta`. -/
inductive Delta
  | text (s : Str)
  | toolCall (content : DeltaContent) (status : ToolCallParseStatus)
deriving DecidableEq, Repr

/-- `ChatCompletionResponseEventType`. -/
inductive EventType
  | start
  | progress
  | complete
deriving DecidableEq, Repr

/-- `ChatCompletionResponseEvent`: event type, delta, optional stop
reason. -/
structure Event where
  event_type : EventType
  delta : Delta
  stop_reason : Option StopReason
deriving DecidableEq, Repr

/-- The decoded assistant message (`decode_assistant_message` result):
text content plus parsed tool calls. -/
structure CompletionMessage where
  content : Str
  tool_calls : List ToolCall
deriving DecidableEq, Repr

/-- One value yielded by the `chat_completion` generator: either a
`ChatCompletionResponseStreamChunk` or a final
`ChatCompletionResponse`. -/
inductive Chunk
  | stream (event : Event)
  | response (completion_message : CompletionMessage)
      (logprobs : Option (List (Option Int)))
deriving DecidableEq, Repr

/-- The `RuntimeError`s raised by `chat_completion` before any token is
consumed (inference.py lines 70-81). -/
inductive RuntimeErr
  | unknownModel
  | modelMismatch
  | busy
deriving DecidableEq, Repr

/-- A resolved model; only its descriptor is consulted. -/
structure Model where
  descriptor : Str
deriving DecidableEq, Repr

/-- The request fields the pipeline branches on. -/
structure ChatCompletionRequest where
  model : Str
  stream : Bool
  logprobs : Bool
deriving DecidableEq, Repr

/-- The mutable state of the token loop (inference.py lines 92-98),
together with the stream chunks yielded so far. -/
structure LoopState where
  tokens : List Nat
  logprobs : List (Option Int)
  stop_reason : Option StopReason
  buffer : Str
  ipython : Bool
  events : List Event
deriving DecidableEq, Repr

/-- The start event (inference.py lines 85-90). -/
def startEvent : Event :=
  { event_type := EventType.start, delta := Delta.text [], stop_reason := none }

/-- The tool-call-started progress event (inference.py lines 112-120). -/
def startedEvent : Event :=
  { event_type := EventType.progress
    delta := Delta.toolCall (DeltaContent.str []) ToolCallParseStatus.started
    stop_reason := none }

/-- The terminal event (inference.py lines 190-196). -/
def completeEvent (r : StopReason) : Event :=
  { event_type := EventType.complete, delta := Delta.text [], stop_reason := some r }

/-- The tool-call parse-failure progress event (inference.py
lines 167-176). -/
def failureEvent (r : StopReason) : Event :=
  { event_type := EventType.progress
    delta := Delta.toolCall (DeltaContent.str []) ToolCallParseStatus.failure
    stop_reason := some r }

/-- The per-tool-call success progress event (inference.py
lines 179-188). -/
def successEvent (tc : ToolCall) (r : StopReason) : Event :=
  { event_type := EventType.progress
    delta := Delta.toolCall (DeltaContent.call tc) ToolCallParseStatus.success
    stop_reason := some r }

/-- Stop-reason classification of one fragment (inference.py
lines 130-135): an exact end-marker match sets the stop reason, anything
else keeps the current one. -/
def classifyStop (old : Option StopReason) (t : Str) : Option StopReason :=
  if t = eotId then some StopReason.end_of_turn
  else if t = eomId then some StopReason.end_of_message
  else old

/-- Text payload substitution for one fragment (inference.py
lines 130-137): end markers are replaced by the empty text. -/
def classifyText (t : Str) : Str :=
  if t = eotId then [] else if t = eomId then [] else t

/-- The tool-call-mode entry branch of the loop body (inference.py
lines 110-122): set the flag, yield the started event, strip the
sentinel from the buffer, `continue`. -/
def tagStep (s : LoopState) (tr : TokenResult) : LoopState :=
  { tokens := s.tokens ++ [tr.token]
    logprobs := s.logprobs
    stop_reason := s.stop_reason
    buffer := (s.buffer ++ tr.text).drop pythonTag.length
    ipython := true
    events := s.events ++ [startedEvent] }

/-- The non-streaming branch of the loop body (inference.py
lines 124-128): accumulate the logprob when requested, `continue`. -/
def nonStreamStep (req : ChatCompletionRequest) (s : LoopState)
    (tr : TokenResult) : LoopState :=
  { tokens := s.tokens ++ [tr.token]
    logprobs := if req.logprobs then s.logprobs ++ [tr.logprob] else s.logprobs
    stop_reason := s.stop_reason
    buffer := s.buffer ++ tr.text
    ipython := s.ipython
    events := s.events }

/-- The streaming tail of the loop body (inference.py lines 130-154):
classify the fragment, build the delta from the current mode, and yield
a progress event unless a stop reason is set. -/
def streamStep (s : LoopState) (tr : TokenResult) : LoopState :=
  { tokens := s.tokens ++ [tr.token]
    logprobs := s.logprobs
    stop_reason := classifyStop s.stop_reason tr.text
    buffer := s.buffer ++ tr.text
    ipython := s.ipython
    events :=
      if classifyStop s.stop_reason tr.text = none then
        s.events ++
          [{ event_type := EventType.progress
             delta :=
               if s.ipython then
                 Delta.toolCall (DeltaContent.str (classifyText tr.text))
                   ToolCallParseStatus.in_progress
               else Delta.text (classifyText tr.text)
             stop_reason := none }]
      else s.events }

/-- One iteration of the token loop of `chat_completion` (inference.py
lines 100-154): append to buffer and token list, then dispatch on the
sentinel match, the streaming flag, and the classifier. -/
def processToken (req : ChatCompletionRequest) (s : LoopState)
    (tr : TokenResult) : LoopState :=
  if !s.ipython && pythonTag.isPrefixOf (s.buffer ++ tr.text) then tagStep s tr
  else if !req.stream then nonStreamStep req s tr
  else streamStep s tr

/-- The loop state before the first fragment (inference.py lines 84-98):
for a streaming request the start event has already been yielded. -/
def initState (req : ChatCompletionRequest) : LoopState :=
  { tokens := []
    logprobs := []
    stop_reason := none
    buffer := []
    ipython := false
    events := if req.stream then [startEvent] else [] }

/-- The state after the token iterator is exhausted. -/
def runLoop (req : ChatCompletionRequest) (gen : List TokenResult) : LoopState :=
  gen.foldl (processToken req) (initState req)

/-- The resolved stop reason (inference.py lines 156-157): defaults to
`out_of_tokens` when no marker was observed. -/
def finalStop (req : ChatCompletionRequest) (gen : List TokenResult) : StopReason :=
  (runLoop req gen).stop_reason.getD StopReason.out_of_tokens

/-- The full event sequence of a streaming session (inference.py
lines 84-196): per-token events, then the reconciliation events from the
decoded message, then the terminal event. -/
def finalEvents (req : ChatCompletionRequest) (gen : List TokenResult)
    (decode : List Nat → StopReason → CompletionMessage) : List Event :=
  let s := runLoop req gen
  let stop := finalStop req gen
  let message := decode s.tokens stop
  let failEvents :=
    if s.ipython && message.tool_calls.isEmpty then [failureEvent stop] else []
  let succEvents := message.tool_calls.map (fun tc => successEvent tc stop)
  s.events ++ failEvents ++ succEvents ++ [completeEvent stop]

/-- The whole of `chat_completion` (inference.py lines 65-203), with the
model resolver, the admission gate's observable state, the generation
engine's output and the message decoder as explicit inputs.  The result
is the ordered list of values the Python generator yields, or the
`RuntimeError` it raises before yielding anything. -/
def chatCompletion (req : ChatCompletionRequest) (resolve : Str → Option Model)
    (loadedModel : Model) (locked : Bool) (gen : List TokenResult)
    (decode : List Nat → StopReason → CompletionMessage) :
    Except RuntimeErr (List Chunk) :=
  match resolve req.model with
  | none => Except.error RuntimeErr.unknownModel
  | some model =>
    if model.descriptor ≠ loadedModel.descriptor then
      Except.error RuntimeErr.modelMismatch
    else if locked then Except.error RuntimeErr.busy
    else
      let s := runLoop req gen
      if req.stream then
        Except.ok ((finalEvents req gen decode).map Chunk.stream)
      else
        Except.ok (s.events.map Chunk.stream ++
          [Chunk.response (decode s.tokens (finalStop req gen))
            (if req.logprobs then some s.logprobs else none)])

/-- Concatenation of the text fragments of a generation run. -/
def textConcat (gen : List TokenResult) : Str :=
  (gen.map TokenResult.text).flatten

/-- Whether an event is a tool-call delta with the given parse status. -/
def isStatusEvent (st : ToolCallParseStatus) (e : Event) : Bool :=
  match e.delta with
  | Delta.toolCall _ s => s == st
  | _ => false

/-- Number of tool-call events with the given parse status. -/
def countStatus (st : ToolCallParseStatus) (es : List Event) : Nat :=
  es.countP (isStatusEvent st)

/-- Number of events of the given event type. -/
def countType (t : EventType) (es : List Event) : Nat :=
  es.countP (fun e => e.event_type == t)

/-- An event that the token loop itself may append: always a progress
event, never a `failure` or `success` tool-call delta, and its text
payload is never an end marker. -/
def LoopEvent (e : Event) : Prop :=
  e.event_type = EventType.progress ∧
  isStatusEvent ToolCallParseStatus.failure e = false ∧
  isStatusEvent ToolCallParseStatus.success e = false ∧
  ∀ t : Str,
    (e.delta = Delta.text t ∨ ∃ st, e.delta = Delta.toolCall (DeltaContent.str t) st) →
    t ≠ eotId ∧ t ≠ eomId

/-- Reachability invariant of the token loop: while tool-call mode is
off the buffer has not matched the sentinel, and once a stop reason
exists the buffer can no longer grow into a sentinel match. -/
def Inv (s : LoopState) : Prop :=
  (s.ipython = false → ¬ pythonTag <+: s.buffer) ∧
  (s.ipython = false → s.stop_reason ≠ none → ¬ s.buffer <+: pythonTag)

/- Concrete fixtures shared by the witnesses and counterexamples. -/

/-- A concrete loaded model. -/
def sampleModel : Model := { descriptor := "Meta-Llama3.1-8B".toList }

/-- A resolver that knows every identifier and returns the loaded
model's descriptor. -/
def sampleResolve : Str → Option Model := fun _ => some sampleModel

/-- A resolver that knows no identifier. -/
def noneResolve : Str → Option Model := fun _ => none

/-- A resolver that answers with a descriptor different from
`sampleModel`'s. -/
def otherResolve : Str → Option Model :=
  fun _ => some { descriptor := "other".toList }

/-- A concrete streaming request. -/
def reqStream : ChatCompletionRequest :=
  { model := "m".toList, stream := true, logprobs := false }

/-- A concrete non-streaming request. -/
def reqNoStream : ChatCompletionRequest :=
  { model := "m".toList, stream := false, logprobs := false }

/-- A decoder that parses no tool call. -/
def decodeEmpty : List Nat → StopReason → CompletionMessage :=
  fun _ _ => { content := [], tool_calls := [] }

/-- A decoder that parses exactly one tool call. -/
def decodeOne : List Nat → StopReason → CompletionMessage :=
  fun _ _ => { content := [], tool_calls := [7] }

/-- A token result with the given text and token id and no logprob. -/
def mkTR (t : Str) (n : Nat) : TokenResult :=
  { text := t, token := n, logprob := none }

/-- The raw text payload carried by a delta, if any. -/
def deltaContentStr : Delta → Option Str
  | Delta.text s => some s
  | Delta.toolCall (DeltaContent.str s) _ => some s
  | Delta.toolCall (DeltaContent.call _) _ => none

/-- A generation run whose sentinel fragment carries a trailing
remainder. -/
def genTagRemainder : List TokenResult :=
  [mkTR (pythonTag ++ ['a', 'b', 'c']) 1, mkTR ['d', 'e', 'f'] 2]

/-! Generic lemmas about the loop. -/

theorem runLoop_append (req : ChatCompletionRequest) (gen more : List TokenResult) :
    runLoop req (gen ++ more) = more.foldl (processToken req) (runLoop req gen) := by
  simp [runLoop, List.foldl_append]

theorem foldl_inv (req : ChatCompletionRequest) (P : LoopState → Prop)
    (hstep : ∀ s tr, P s → P (processToken req s tr)) :
    ∀ (gen : List TokenResult) (s : LoopState), P s →
      P (gen.foldl (processToken req) s)
  | [], _, hs => hs
  | tr :: gen, s, hs => foldl_inv req P hstep gen _ (hstep s tr hs)

/-! Anatomy of a single loop step. -/

theorem processToken_cases (req : ChatCompletionRequest) (s : LoopState)
    (tr : TokenResult) :
    processToken req s tr = tagStep s tr ∨
    processToken req s tr = nonStreamStep req s tr ∨
    processToken req s tr = streamStep s tr := by
  unfold processToken
  split
  · exact Or.inl rfl
  · split
    · exact Or.inr (Or.inl rfl)
    · exact Or.inr (Or.inr rfl)

theorem processToken_tokens (req : ChatCompletionRequest) (s : LoopState)
    (tr : TokenResult) : (processToken req s tr).tokens = s.tokens ++ [tr.token] := by
  rcases processToken_cases req s tr with h | h | h <;>
    simp [h, tagStep, nonStreamStep, streamStep]

theorem processToken_ipython_mono (req : ChatCompletionRequest) (s : LoopState)
    (tr : TokenResult) (h : s.ipython = true) :
    (processToken req s tr).ipython = true := by
  rcases processToken_cases req s tr with hc | hc | hc <;>
    simp [hc, tagStep, nonStreamStep, streamStep, h]

theorem processToken_stop_of_not_marker (req : ChatCompletionRequest) (s : LoopState)
    (tr : TokenResult) (h1 : tr.text ≠ eotId) (h2 : tr.text ≠ eomId) :
    (processToken req s tr).stop_reason = s.stop_reason := by
  rcases processToken_cases req s tr with hc | hc | hc <;>
    simp [hc, tagStep, nonStreamStep, streamStep, classifyStop, h1, h2]

theorem classifyStop_eot (old : Option StopReason) :
    classifyStop old eotId = some StopReason.end_of_turn := by
  simp [classifyStop]

theorem classifyStop_eom (old : Option StopReason) :
    classifyStop old eomId = some StopReason.end_of_message := by
  have h : ¬ (eomId = eotId) := by decide
  simp [classifyStop, h]

theorem startedEvent_loopEvent : LoopEvent startedEvent := by
  refine ⟨rfl, rfl, rfl, ?_⟩
  intro t ht
  rcases ht with ht | ⟨st, ht⟩
  · simp [startedEvent] at ht
  · simp only [startedEvent] at ht
    cases ht
    constructor <;> decide

theorem processToken_events (req : ChatCompletionRequest) (s : LoopState)
    (tr : TokenResult) :
    ∃ es, (processToken req s tr).events = s.events ++ es ∧
      ∀ e ∈ es, LoopEvent e := by
  rcases processToken_cases req s tr with hc | hc | hc
  · refine ⟨[startedEvent], by simp [hc, tagStep], ?_⟩
    intro e he
    simp only [List.mem_singleton] at he
    subst he
    exact startedEvent_loopEvent
  · exact ⟨[], by simp [hc, nonStreamStep], by simp⟩
  · by_cases hstop : classifyStop s.stop_reason tr.text = none
    · have h1 : tr.text ≠ eotId := by
        intro h
        rw [h, classifyStop_eot] at hstop
        cases hstop
      have h2 : tr.text ≠ eomId := by
        intro h
        rw [h, classifyStop_eom] at hstop
        cases hstop
      have htext : classifyText tr.text = tr.text := by
        simp [classifyText, h1, h2]
      refine ⟨[{ event_type := EventType.progress
                 delta :=
                   if s.ipython then
                     Delta.toolCall (DeltaContent.str (classifyText tr.text))
                       ToolCallParseStatus.in_progress
                   else Delta.text (classifyText tr.text)
                 stop_reason := none }],
              by simp [hc, streamStep, hstop], ?_⟩
      intro e he
      simp only [List.mem_singleton] at he
      subst he
      refine ⟨rfl, ?_, ?_, ?_⟩
      · by_cases hi : s.ipython <;> simp [isStatusEvent, hi]
      · by_cases hi : s.ipython <;> simp [isStatusEvent, hi]
      · intro t ht
        by_cases hi : s.ipython <;> simp only [hi] at ht
        · simp only [if_true] at ht
          rcases ht with ht | ⟨st, ht⟩
          · cases ht
          · cases ht
            rw [htext]
            exact ⟨h1, h2⟩
        · simp only [Bool.false_eq_true, if_false] at ht
          rcases ht with ht | ⟨st, ht⟩
          · cases ht
            rw [htext]
            exact ⟨h1, h2⟩
          · cases ht
    · exact ⟨[], by simp [hc, streamStep, hstop], by simp⟩

/-! String facts about the sentinel and the end markers. -/

theorem pre_or_pre {a b c : Str} (h₁ : a <+: c) (h₂ : b <+: c) :
    a <+: b ∨ b <+: a :=
  List.prefix_or_prefix_of_prefix h₁ h₂

theorem pre_append (a t : Str) : a <+: a ++ t := ⟨t, rfl⟩

theorem marker_ext_not_pre_tag (m b : Str) (hm : m = eotId ∨ m = eomId) :
    ¬ (b ++ m <+: pythonTag) := by
  intro h
  have hm10 : m.length = 10 := by rcases hm with rfl | rfl <;> rfl
  have hlen : b.length + m.length ≤ pythonTag.length := by
    simpa using h.length_le
  have hb : b.length < 5 := by
    have h14 : pythonTag.length = 14 := rfl
    omega
  obtain ⟨t, ht⟩ := h
  have hmt : m ++ t = pythonTag.drop b.length := by
    have h2 := congrArg (List.drop b.length) ht
    rwa [List.append_assoc, List.drop_left] at h2
  have hkey : ∀ n, n < 5 →
      ¬ (eotId <+: pythonTag.drop n) ∧ ¬ (eomId <+: pythonTag.drop n) := by decide
  rcases hm with rfl | rfl
  · exact (hkey b.length hb).1 ⟨t, hmt⟩
  · exact (hkey b.length hb).2 ⟨t, hmt⟩

theorem tag_not_pre_marker_ext (m b : Str) (hm : m = eotId ∨ m = eomId)
    (hb : ¬ pythonTag <+: b) : ¬ pythonTag <+: b ++ m := by
  intro h
  rcases pre_or_pre h (pre_append b m) with hc | hc
  · exact hb hc
  · have hbt : b = pythonTag.take b.length :=
      List.prefix_iff_eq_take.mp hc
    have h14 : b.length < 14 := by
      rcases Nat.lt_or_ge b.length pythonTag.length with h' | h'
      · exact h'
      · exfalso
        apply hb
        have hbe : b = pythonTag := hc.eq_of_length_le h'
        rw [hbe]
    have hkey : ∀ n, n < 14 →
        ¬ (pythonTag <+: pythonTag.take n ++ eotId) ∧
        ¬ (pythonTag <+: pythonTag.take n ++ eomId) := by decide
    rcases hm with rfl | rfl
    · exact (hkey b.length h14).1 (by rwa [← hbt])
    · exact (hkey b.length h14).2 (by rwa [← hbt])

/-! The reachability invariant. -/

theorem initState_inv (req : ChatCompletionRequest) : Inv (initState req) := by
  refine ⟨?_, ?_⟩
  · intro _ h
    have hl := h.length_le
    have h0 : pythonTag.length ≤ 0 := by simpa [initState] using hl
    exact absurd h0 (by decide)
  · intro _ hstop
    exact absurd rfl hstop

theorem processToken_inv (req : ChatCompletionRequest) (s : LoopState)
    (tr : TokenResult) (hs : Inv s) : Inv (processToken req s tr) := by
  obtain ⟨h1, h2⟩ := hs
  unfold processToken
  split
  case isTrue hguard =>
    refine ⟨?_, ?_⟩ <;> intro hip <;> simp [tagStep] at hip
  case isFalse hguard =>
    have hg : s.ipython = false → ¬ pythonTag <+: (s.buffer ++ tr.text) := by
      intro hip hpre
      apply hguard
      simp only [hip, Bool.not_false, Bool.true_and]
      exact List.isPrefixOf_iff_prefix.mpr hpre
    split
    case isTrue hstream =>
      refine ⟨?_, ?_⟩
      · intro hip
        simp only [nonStreamStep] at hip ⊢
        exact hg hip
      · intro hip hstop
        simp only [nonStreamStep] at hip hstop ⊢
        intro hpre
        exact h2 hip hstop ((pre_append s.buffer tr.text).trans hpre)
    case isFalse hstream =>
      refine ⟨?_, ?_⟩
      · intro hip
        simp only [streamStep] at hip ⊢
        exact hg hip
      · intro hip hstop
        simp only [streamStep] at hip hstop ⊢
        by_cases he1 : tr.text = eotId
        · intro hpre
          rw [he1] at hpre
          exact marker_ext_not_pre_tag eotId s.buffer (Or.inl rfl) hpre
        · by_cases he2 : tr.text = eomId
          · intro hpre
            rw [he2] at hpre
            exact marker_ext_not_pre_tag eomId s.buffer (Or.inr rfl) hpre
          · have hcs : classifyStop s.stop_reason tr.text = s.stop_reason := by
              simp [classifyStop, he1, he2]
            rw [hcs] at hstop
            intro hpre
            exact h2 hip hstop ((pre_append s.buffer tr.text).trans hpre)

theorem runLoop_inv (req : ChatCompletionRequest) (gen : List TokenResult) :
    Inv (runLoop req gen) := by
  unfold runLoop
  exact foldl_inv req Inv (fun s tr hs => processToken_inv req s tr hs) gen
    (initState req) (initState_inv req)

/-! Consequences of the invariant for single steps. -/

theorem no_trigger_of_inv (s : LoopState) (hs : Inv s) (tr : TokenResult)
    (hm : tr.text = eotId ∨ tr.text = eomId) :
    (!s.ipython && pythonTag.isPrefixOf (s.buffer ++ tr.text)) = false := by
  by_cases hip : s.ipython
  · simp [hip]
  · have hip' : s.ipython = false := by simpa using hip
    have hnb : ¬ pythonTag <+: s.buffer := hs.1 hip'
    have hne : ¬ pythonTag <+: s.buffer ++ tr.text :=
      tag_not_pre_marker_ext tr.text s.buffer hm hnb
    simp only [hip', Bool.not_false, Bool.true_and]
    rw [Bool.eq_false_iff]
    intro hb
    have hb2 := List.isPrefixOf_iff_prefix.mp hb
    exact hne hb2

theorem processToken_marker (req : ChatCompletionRequest) (s : LoopState)
    (tr : TokenResult) (hs : Inv s) (hstream : req.stream = true)
    (hm : tr.text = eotId ∨ tr.text = eomId) :
    (processToken req s tr).stop_reason =
      (if tr.text = eotId then some StopReason.end_of_turn
       else some StopReason.end_of_message) ∧
    (processToken req s tr).events = s.events := by
  have hg := no_trigger_of_inv s hs tr hm
  have heq : processToken req s tr = streamStep s tr := by
    unfold processToken
    rw [hg]
    simp [hstream]
  have hne : eomId ≠ eotId := by decide
  refine ⟨?_, ?_⟩
  · rw [heq]
    rcases hm with h | h
    · simp [streamStep, h, classifyStop_eot]
    · simp [streamStep, h, classifyStop_eom, hne]
  · rw [heq]
    rcases hm with h | h
    · simp [streamStep, h, classifyStop_eot]
    · simp [streamStep, h, classifyStop_eom]

/-! Whole-fold lemmas. -/

theorem stop_const_of_no_marker (req : ChatCompletionRequest) :
    ∀ (post : List TokenResult) (s : LoopState),
      (∀ tr ∈ post, tr.text ≠ eotId ∧ tr.text ≠ eomId) →
      (post.foldl (processToken req) s).stop_reason = s.stop_reason
  | [], _, _ => rfl
  | tr :: post, s, h => by
    have h1 := h tr (List.mem_cons_self tr post)
    have h2 := stop_const_of_no_marker req post (processToken req s tr)
      (fun tr' ht => h tr' (List.mem_cons_of_mem _ ht))
    rw [List.foldl_cons, h2, processToken_stop_of_not_marker req s tr h1.1 h1.2]

theorem foldl_events (req : ChatCompletionRequest) :
    ∀ (gen : List TokenResult) (s : LoopState),
      ∃ es, (gen.foldl (processToken req) s).events = s.events ++ es ∧
        ∀ e ∈ es, LoopEvent e
  | [], s => ⟨[], by simp, by simp⟩
  | tr :: gen, s => by
    obtain ⟨es1, he1, hl1⟩ := processToken_events req s tr
    obtain ⟨es2, he2, hl2⟩ := foldl_events req gen (processToken req s tr)
    refine ⟨es1 ++ es2, ?_, ?_⟩
    · rw [List.foldl_cons, he2, he1, List.append_assoc]
    · intro e he
      rcases List.mem_append.mp he with h | h
      exacts [hl1 e h, hl2 e h]

theorem foldl_ipython (req : ChatCompletionRequest) (l : List TokenResult)
    (s : LoopState) (h : s.ipython = true) :
    (l.foldl (processToken req) s).ipython = true :=
  foldl_inv req (fun s => s.ipython = true)
    (fun s tr hs => processToken_ipython_mono req s tr hs) l s h

theorem foldl_tokens (req : ChatCompletionRequest) :
    ∀ (l : List TokenResult) (s : LoopState),
      (l.foldl (processToken req) s).tokens = s.tokens ++ l.map TokenResult.token
  | [], s => by simp
  | tr :: l, s => by
    rw [List.foldl_cons, foldl_tokens req l, processToken_tokens]
    simp

/-! Suppression of emission after a stop reason is set. -/

theorem classifyStop_ne_none (old : Option StopReason) (t : Str)
    (h : old ≠ none) : classifyStop old t ≠ none := by
  unfold classifyStop
  split
  · exact fun hc => by cases hc
  · split
    · exact fun hc => by cases hc
    · exact h

theorem processToken_after_stop (req : ChatCompletionRequest) (s : LoopState)
    (tr : TokenResult) (hs : Inv s) (hstop : s.stop_reason ≠ none) :
    (processToken req s tr).events = s.events ∧
    (processToken req s tr).stop_reason ≠ none := by
  have hguard : (!s.ipython && pythonTag.isPrefixOf (s.buffer ++ tr.text)) = false := by
    by_cases hip : s.ipython
    · simp [hip]
    · have hip' : s.ipython = false := by simpa using hip
      have hnt : ¬ s.buffer <+: pythonTag := hs.2 hip' hstop
      have hnb : ¬ pythonTag <+: s.buffer := hs.1 hip'
      simp only [hip', Bool.not_false, Bool.true_and]
      rw [Bool.eq_false_iff]
      intro hb
      have hpre := List.isPrefixOf_iff_prefix.mp hb
      rcases pre_or_pre hpre (pre_append s.buffer tr.text) with hc | hc
      · exact hnb hc
      · exact hnt hc
  unfold processToken
  rw [hguard]
  simp only [Bool.false_eq_true, if_false]
  split
  · exact ⟨rfl, by simpa [nonStreamStep] using hstop⟩
  · have hcs : classifyStop s.stop_reason tr.text ≠ none :=
      classifyStop_ne_none s.stop_reason tr.text hstop
    exact ⟨by simp [streamStep, hcs], by simpa [streamStep] using hcs⟩

theorem foldl_after_stop (req : ChatCompletionRequest) :
    ∀ (more : List TokenResult) (s : LoopState), Inv s → s.stop_reason ≠ none →
      (more.foldl (processToken req) s).events = s.events ∧
      (more.foldl (processToken req) s).stop_reason ≠ none
  | [], _, _, hstop => ⟨rfl, hstop⟩
  | tr :: more, s, hs, hstop => by
    obtain ⟨he, hstop'⟩ := processToken_after_stop req s tr hs hstop
    obtain ⟨he2, hs2⟩ := foldl_after_stop req more (processToken req s tr)
      (processToken_inv req s tr hs) hstop'
    rw [List.foldl_cons, he2, he]
    exact ⟨rfl, hs2⟩

/-! Characterization of the tool-call-mode flag and of the buffer. -/

theorem processToken_ipython_false (req : ChatCompletionRequest) (s : LoopState)
    (tr : TokenResult) (h : (processToken req s tr).ipython = false) :
    s.ipython = false ∧ (processToken req s tr).buffer = s.buffer ++ tr.text := by
  unfold processToken at h ⊢
  split at h
  · simp [tagStep] at h
  · constructor
    · revert h
      split <;> intro h <;> simpa [nonStreamStep, streamStep] using h
    · revert h
      split <;> intro h <;> simp [nonStreamStep, streamStep]

theorem processToken_trigger (req : ChatCompletionRequest) (s : LoopState)
    (tr : TokenResult) (hold : s.ipython = false)
    (hnew : (processToken req s tr).ipython = true) :
    pythonTag.isPrefixOf (s.buffer ++ tr.text) = true := by
  unfold processToken at hnew
  split at hnew
  case isTrue h =>
    simp only [Bool.and_eq_true] at h
    exact h.2
  case isFalse h =>
    exfalso
    split at hnew <;> simp [nonStreamStep, streamStep, hold] at hnew

theorem foldl_buffer (req : ChatCompletionRequest) :
    ∀ (gen : List TokenResult) (s : LoopState),
      (gen.foldl (processToken req) s).ipython = false →
      (gen.foldl (processToken req) s).buffer = s.buffer ++ textConcat gen
  | [], s, _ => by simp [textConcat]
  | tr :: gen, s, h => by
    have h1 : (processToken req s tr).ipython = false := by
      cases hx : (processToken req s tr).ipython
      · rfl
      · rw [List.foldl_cons, foldl_ipython req gen _ hx] at h
        cases h
    obtain ⟨hsip, hbuf⟩ := processToken_ipython_false req s tr h1
    rw [List.foldl_cons,
      foldl_buffer req gen _ (by rwa [List.foldl_cons] at h), hbuf]
    simp [textConcat]

theorem buffer_concat (req : ChatCompletionRequest) (gen : List TokenResult)
    (h : (runLoop req gen).ipython = false) :
    (runLoop req gen).buffer = textConcat gen := by
  unfold runLoop at h ⊢
  rw [foldl_buffer req gen (initState req) h]
  rfl

theorem ipython_iff_match (req : ChatCompletionRequest) (gen : List TokenResult) :
    (runLoop req gen).ipython = true ↔
      ∃ i, i < gen.length ∧ pythonTag <+: textConcat (gen.take (i + 1)) := by
  constructor
  · induction gen using List.reverseRecOn with
    | nil => intro h; cases h
    | append_singleton gen tr ih =>
      intro h
      rw [runLoop_append] at h
      simp only [List.foldl_cons, List.foldl_nil] at h
      cases hip : (runLoop req gen).ipython
      · have htr := processToken_trigger req (runLoop req gen) tr hip h
        have hbuf := buffer_concat req gen hip
        refine ⟨gen.length, by simp, ?_⟩
        have hmatch := List.isPrefixOf_iff_prefix.mp htr
        rw [hbuf] at hmatch
        have htake : (gen ++ [tr]).take (gen.length + 1) = gen ++ [tr] :=
          List.take_of_length_le (by simp)
        rw [htake]
        have hconcat : textConcat (gen ++ [tr]) = textConcat gen ++ tr.text := by
          simp [textConcat]
        rwa [hconcat]
      · obtain ⟨i, hi, hm⟩ := ih hip
        refine ⟨i, by simp; omega, ?_⟩
        rwa [List.take_append_of_le_length (by omega)]
  · rintro ⟨i, hi, hm⟩
    have hsplit : gen = gen.take (i + 1) ++ gen.drop (i + 1) := by
      rw [List.take_append_drop]
    cases hip : (runLoop req (gen.take (i + 1))).ipython
    · exfalso
      have hbuf := buffer_concat req (gen.take (i + 1)) hip
      have hinv := (runLoop_inv req (gen.take (i + 1))).1 hip
      rw [hbuf] at hinv
      exact hinv hm
    · calc (runLoop req gen).ipython
          = (runLoop req (gen.take (i + 1) ++ gen.drop (i + 1))).ipython := by
            rw [← hsplit]
        _ = true := by
            rw [runLoop_append]
            exact foldl_ipython req _ _ hip

/-! The started-event count tracks the tool-call-mode flag. -/

theorem countStarted_stream_evt (s : LoopState) (tr : TokenResult) :
    List.countP (isStatusEvent ToolCallParseStatus.started)
      [{ event_type := EventType.progress
         delta :=
           if s.ipython then
             Delta.toolCall (DeltaContent.str (classifyText tr.text))
               ToolCallParseStatus.in_progress
           else Delta.text (classifyText tr.text)
         stop_reason := none }] = 0 := by
  by_cases hip : s.ipython <;> simp [hip, isStatusEvent, List.countP_singleton]

theorem started_count_inv (req : ChatCompletionRequest) (gen : List TokenResult) :
    countStatus ToolCallParseStatus.started (runLoop req gen).events =
      (if (runLoop req gen).ipython then 1 else 0) := by
  unfold runLoop
  refine foldl_inv req
    (fun s => countStatus ToolCallParseStatus.started s.events =
      (if s.ipython then 1 else 0)) ?_ gen (initState req) ?_
  · intro s tr hs
    unfold processToken
    split
    case isTrue h =>
      simp only [Bool.and_eq_true] at h
      have hip : s.ipython = false := by
        have h1 := h.1
        simpa using h1
      have hs0 : countStatus ToolCallParseStatus.started s.events = 0 := by
        rw [hip] at hs
        simpa using hs
      simp only [tagStep, countStatus, List.countP_append] at hs0 ⊢
      rw [hs0]
      simp [isStatusEvent, startedEvent, List.countP_singleton]
    case isFalse h =>
      split
      · simpa [nonStreamStep, countStatus] using hs
      · by_cases hstop : classifyStop s.stop_reason tr.text = none
        · simp only [streamStep, hstop, if_pos, countStatus, List.countP_append,
            countStarted_stream_evt]
          simpa [countStatus] using hs
        · simpa [streamStep, hstop, countStatus] using hs
  · by_cases h : req.stream <;>
      simp [initState, h, countStatus, isStatusEvent, startEvent, List.countP_singleton]

/-! Shape of the accumulated event list. -/

theorem runLoop_events_stream (req : ChatCompletionRequest) (gen : List TokenResult)
    (hs : req.stream = true) :
    ∃ es, (runLoop req gen).events = startEvent :: es ∧ ∀ e ∈ es, LoopEvent e := by
  obtain ⟨es, he, hl⟩ := foldl_events req gen (initState req)
  refine ⟨es, ?_, hl⟩
  unfold runLoop
  rw [he]
  simp [initState, hs]

theorem nonstream_events (req : ChatCompletionRequest) (gen : List TokenResult)
    (hs : req.stream = false) :
    ((runLoop req gen).events = [] ∧ (runLoop req gen).ipython = false) ∨
    ((runLoop req gen).events = [startedEvent] ∧ (runLoop req gen).ipython = true) := by
  unfold runLoop
  refine foldl_inv req
    (fun s => (s.events = [] ∧ s.ipython = false) ∨
      (s.events = [startedEvent] ∧ s.ipython = true)) ?_ gen (initState req) ?_
  · intro s tr hinv
    unfold processToken
    split
    case isTrue h =>
      simp only [Bool.and_eq_true] at h
      have hip : s.ipython = false := by
        have h1 := h.1
        simpa using h1
      rcases hinv with ⟨he, _⟩ | ⟨_, hi⟩
      · right
        exact ⟨by simp [tagStep, he], rfl⟩
      · rw [hi] at hip
        cases hip
    case isFalse h =>
      split
      case isTrue h2 =>
        rcases hinv with ⟨he, hi⟩ | ⟨he, hi⟩
        · left
          exact ⟨by simp [nonStreamStep, he], by simp [nonStreamStep, hi]⟩
        · right
          exact ⟨by simp [nonStreamStep, he], by simp [nonStreamStep, hi]⟩
      case isFalse h2 =>
        exfalso
        apply h2
        rw [hs]
        rfl
  · left
    exact ⟨by simp [initState, hs], rfl⟩

/-! Unfolding `chatCompletion`. -/

theorem chatCompletion_ok (req : ChatCompletionRequest) (resolve : Str → Option Model)
    (loadedModel : Model) (locked : Bool) (gen : List TokenResult)
    (decode : List Nat → StopReason → CompletionMessage) (cs : List Chunk)
    (h : chatCompletion req resolve loadedModel locked gen decode = Except.ok cs) :
    (req.stream = true → cs = (finalEvents req gen decode).map Chunk.stream) ∧
    (req.stream = false → cs = (runLoop req gen).events.map Chunk.stream ++
      [Chunk.response (decode (runLoop req gen).tokens (finalStop req gen))
        (if req.logprobs then some (runLoop req gen).logprobs else none)]) := by
  unfold chatCompletion at h
  cases hres : resolve req.model with
  | none =>
    rw [hres] at h
    cases h
  | some m =>
    rw [hres] at h
    dsimp only at h
    by_cases hd : m.descriptor ≠ loadedModel.descriptor
    · rw [if_pos hd] at h
      cases h
    · rw [if_neg hd] at h
      by_cases hl : locked = true
      · rw [if_pos hl] at h
        cases h
      · rw [if_neg hl] at h
        constructor
        · intro hs
          rw [hs] at h
          simp only [if_pos] at h
          exact (Except.ok.injEq _ _).mp h |>.symm
        · intro hs
          rw [hs] at h
          simp only [Bool.false_eq_true, if_neg] at h
          exact (Except.ok.injEq _ _).mp h |>.symm

theorem finalEvents_eq (req : ChatCompletionRequest) (gen : List TokenResult)
    (decode : List Nat → StopReason → CompletionMessage) :
    finalEvents req gen decode =
      (runLoop req gen).events ++
      (if (runLoop req gen).ipython &&
          (decode (runLoop req gen).tokens (finalStop req gen)).tool_calls.isEmpty
       then [failureEvent (finalStop req gen)] else []) ++
      ((decode (runLoop req gen).tokens (finalStop req gen)).tool_calls.map
        (fun tc => successEvent tc (finalStop req gen))) ++
      [completeEvent (finalStop req gen)] := rfl

/-! Counting tool-call statuses in the reconciliation events. -/

theorem countSuccess_succ_list (tcs : List ToolCall) (r : StopReason) :
    countStatus ToolCallParseStatus.success
      (tcs.map (fun tc => successEvent tc r)) = tcs.length := by
  induction tcs with
  | nil => rfl
  | cons a l ih =>
    simp only [List.map_cons, countStatus, List.countP_cons] at ih ⊢
    simp [ih, isStatusEvent, successEvent]

theorem countStatus_succ_list_other (st : ToolCallParseStatus)
    (hne : st ≠ ToolCallParseStatus.success) (tcs : List ToolCall) (r : StopReason) :
    countStatus st (tcs.map (fun tc => successEvent tc r)) = 0 := by
  induction tcs with
  | nil => rfl
  | cons a l ih =>
    simp only [List.map_cons, countStatus, List.countP_cons] at ih ⊢
    simp [ih, isStatusEvent, successEvent, (Ne.symm hne)]

theorem countStatus_zero_of_loopEvents (st : ToolCallParseStatus)
    (hst : st = ToolCallParseStatus.failure ∨ st = ToolCallParseStatus.success)
    (es : List Event) (h : ∀ e ∈ es, LoopEvent e) : countStatus st es = 0 := by
  rw [countStatus, List.countP_eq_zero]
  intro e he
  rcases hst with rfl | rfl
  · simp [(h e he).2.1]
  · simp [(h e he).2.2.1]

/-! Claim theorems. -/

/-- C4: if a second chat-completion session is started while the single
process-wide permit is held (`locked = true`), the attempt fails
immediately with the `busy` error and yields no chunk at all. -/
theorem c4_busy_rejection (req : ChatCompletionRequest) (resolve : Str → Option Model)
    (loadedModel : Model) (gen : List TokenResult)
    (decode : List Nat → StopReason → CompletionMessage) (m : Model)
    (hres : resolve req.model = some m)
    (hdesc : m.descriptor = loadedModel.descriptor) :
    chatCompletion req resolve loadedModel true gen decode =
      Except.error RuntimeErr.busy ∧
    ∀ cs, chatCompletion req resolve loadedModel true gen decode ≠ Except.ok cs := by
  have heq : chatCompletion req resolve loadedModel true gen decode =
      Except.error RuntimeErr.busy := by
    unfold chatCompletion
    rw [hres]
    dsimp only
    rw [if_neg (by simp [hdesc]), if_pos rfl]
  refine ⟨heq, fun cs hc => ?_⟩
  rw [heq] at hc
  cases hc

/-- Witness for C4 at a concrete busy session. -/
theorem c4_witness :
    chatCompletion reqStream sampleResolve sampleModel true [] decodeEmpty =
      Except.error RuntimeErr.busy :=
  (c4_busy_rejection reqStream sampleResolve sampleModel [] decodeEmpty
    sampleModel rfl rfl).1

/-- C9: an unknown model identifier, or a resolved descriptor different
from the loaded model's, fails with the corresponding fatal error before
the admission gate is consulted (the same error for both gate states)
and produces no stream chunk. -/
theorem c9_model_errors (req : ChatCompletionRequest) (resolve : Str → Option Model)
    (loadedModel : Model) (gen : List TokenResult)
    (decode : List Nat → StopReason → CompletionMessage) :
    (resolve req.model = none →
      ∀ locked, chatCompletion req resolve loadedModel locked gen decode =
        Except.error RuntimeErr.unknownModel) ∧
    (∀ m, resolve req.model = some m → m.descriptor ≠ loadedModel.descriptor →
      ∀ locked, chatCompletion req resolve loadedModel locked gen decode =
        Except.error RuntimeErr.modelMismatch) := by
  constructor
  · intro hres locked
    unfold chatCompletion
    rw [hres]
  · intro m hres hd locked
    unfold chatCompletion
    rw [hres]
    dsimp only
    rw [if_pos hd]

/-- Witness for C9: a resolver that knows no model, and one whose answer
mismatches the loaded descriptor, both while the gate is held. -/
theorem c9_witness :
    chatCompletion reqStream noneResolve sampleModel true [] decodeEmpty =
      Except.error RuntimeErr.unknownModel ∧
    chatCompletion reqStream otherResolve sampleModel true [] decodeEmpty =
      Except.error RuntimeErr.modelMismatch :=
  ⟨(c9_model_errors reqStream noneResolve sampleModel [] decodeEmpty).1 rfl true,
   (c9_model_errors reqStream otherResolve sampleModel [] decodeEmpty).2
     { descriptor := "other".toList } rfl (by decide) true⟩

theorem countStatus_runLoop_zero (req : ChatCompletionRequest)
    (gen : List TokenResult) (st : ToolCallParseStatus) (hs : req.stream = true)
    (hst : st = ToolCallParseStatus.failure ∨ st = ToolCallParseStatus.success) :
    countStatus st (runLoop req gen).events = 0 := by
  obtain ⟨es, he, hl⟩ := runLoop_events_stream req gen hs
  rw [he, countStatus, List.countP_cons]
  have h1 : List.countP (isStatusEvent st) es = 0 := by
    have h2 := countStatus_zero_of_loopEvents st hst es hl
    rwa [countStatus] at h2
  rw [h1]
  rcases hst with rfl | rfl <;> rfl

theorem c3_mid_progress (req : ChatCompletionRequest) (gen : List TokenResult)
    (decode : List Nat → StopReason → CompletionMessage) (es : List Event)
    (hl : ∀ e ∈ es, LoopEvent e) :
    ∀ e ∈ (es ++
      (if (runLoop req gen).ipython &&
          (decode (runLoop req gen).tokens (finalStop req gen)).tool_calls.isEmpty
       then [failureEvent (finalStop req gen)] else []) ++
      ((decode (runLoop req gen).tokens (finalStop req gen)).tool_calls.map
        (fun tc => successEvent tc (finalStop req gen)))),
      e.event_type = EventType.progress := by
  intro e hme
  rcases List.mem_append.mp hme with hme | hme
  · rcases List.mem_append.mp hme with hme | hme
    · exact (hl e hme).1
    · split at hme
      · simp only [List.mem_singleton] at hme
        rw [hme]
        rfl
      · simp at hme
  · obtain ⟨tc, _, htc⟩ := List.mem_map.mp hme
    rw [← htc]
    rfl

/-- C3: a completed streaming session emits `Start · Progress* ·
Complete` — the chunk list is a start event, then progress events only,
then one complete event carrying the resolved stop reason; start and
complete each occur exactly once. -/
theorem c3_event_ordering (req : ChatCompletionRequest) (resolve : Str → Option Model)
    (loadedModel : Model) (locked : Bool) (gen : List TokenResult)
    (decode : List Nat → StopReason → CompletionMessage) (cs : List Chunk)
    (hs : req.stream = true)
    (hok : chatCompletion req resolve loadedModel locked gen decode = Except.ok cs) :
    ∃ mid, cs = (startEvent :: (mid ++ [completeEvent (finalStop req gen)])).map
        Chunk.stream ∧
      startEvent.event_type = EventType.start ∧
      (completeEvent (finalStop req gen)).event_type = EventType.complete ∧
      (∀ e ∈ mid, e.event_type = EventType.progress) ∧
      countType EventType.start
        (startEvent :: (mid ++ [completeEvent (finalStop req gen)])) = 1 ∧
      countType EventType.complete
        (startEvent :: (mid ++ [completeEvent (finalStop req gen)])) = 1 := by
  have hcs := (chatCompletion_ok req resolve loadedModel locked gen decode cs hok).1 hs
  obtain ⟨es, he, hl⟩ := runLoop_events_stream req gen hs
  refine ⟨es ++
    (if (runLoop req gen).ipython &&
        (decode (runLoop req gen).tokens (finalStop req gen)).tool_calls.isEmpty
     then [failureEvent (finalStop req gen)] else []) ++
    ((decode (runLoop req gen).tokens (finalStop req gen)).tool_calls.map
      (fun tc => successEvent tc (finalStop req gen))), ?_, rfl, rfl, ?_, ?_, ?_⟩
  · rw [hcs, finalEvents_eq, he]
    simp [List.append_assoc]
  · exact c3_mid_progress req gen decode es hl
  · have h0 : List.countP (fun e => e.event_type == EventType.start)
        (es ++
          (if (runLoop req gen).ipython &&
              (decode (runLoop req gen).tokens (finalStop req gen)).tool_calls.isEmpty
           then [failureEvent (finalStop req gen)] else []) ++
          ((decode (runLoop req gen).tokens (finalStop req gen)).tool_calls.map
            (fun tc => successEvent tc (finalStop req gen)))) = 0 :=
      List.countP_eq_zero.mpr (fun e hme => by
        simp [c3_mid_progress req gen decode es hl e hme])
    have hcS : List.countP (fun e => e.event_type == EventType.start) [startEvent] = 1 := rfl
    have hcC : List.countP (fun e => e.event_type == EventType.start)
        [completeEvent (finalStop req gen)] = 0 := rfl
    have hdecomp :
        startEvent :: ((es ++
          (if (runLoop req gen).ipython &&
              (decode (runLoop req gen).tokens (finalStop req gen)).tool_calls.isEmpty
           then [failureEvent (finalStop req gen)] else []) ++
          ((decode (runLoop req gen).tokens (finalStop req gen)).tool_calls.map
            (fun tc => successEvent tc (finalStop req gen)))) ++
          [completeEvent (finalStop req gen)]) =
        [startEvent] ++
          (es ++
          (if (runLoop req gen).ipython &&
              (decode (runLoop req gen).tokens (finalStop req gen)).tool_calls.isEmpty
           then [failureEvent (finalStop req gen)] else []) ++
          ((decode (runLoop req gen).tokens (finalStop req gen)).tool_calls.map
            (fun tc => successEvent tc (finalStop req gen)))) ++
          [completeEvent (finalStop req gen)] := by
      simp
    rw [countType, hdecomp, List.countP_append, List.countP_append, hcS, hcC, h0]
  · have h0 : List.countP (fun e => e.event_type == EventType.complete)
        (es ++
          (if (runLoop req gen).ipython &&
              (decode (runLoop req gen).tokens (finalStop req gen)).tool_calls.isEmpty
           then [failureEvent (finalStop req gen)] else []) ++
          ((decode (runLoop req gen).tokens (finalStop req gen)).tool_calls.map
            (fun tc => successEvent tc (finalStop req gen)))) = 0 :=
      List.countP_eq_zero.mpr (fun e hme => by
        simp [c3_mid_progress req gen decode es hl e hme])
    have hcS : List.countP (fun e => e.event_type == EventType.complete) [startEvent] = 0 := rfl
    have hcC : List.countP (fun e => e.event_type == EventType.complete)
        [completeEvent (finalStop req gen)] = 1 := rfl
    have hdecomp :
        startEvent :: ((es ++
          (if (runLoop req gen).ipython &&
              (decode (runLoop req gen).tokens (finalStop req gen)).tool_calls.isEmpty
           then [failureEvent (finalStop req gen)] else []) ++
          ((decode (runLoop req gen).tokens (finalStop req gen)).tool_calls.map
            (fun tc => successEvent tc (finalStop req gen)))) ++
          [completeEvent (finalStop req gen)]) =
        [startEvent] ++
          (es ++
          (if (runLoop req gen).ipython &&
              (decode (runLoop req gen).tokens (finalStop req gen)).tool_calls.isEmpty
           then [failureEvent (finalStop req gen)] else []) ++
          ((decode (runLoop req gen).tokens (finalStop req gen)).tool_calls.map
            (fun tc => successEvent tc (finalStop req gen)))) ++
          [completeEvent (finalStop req gen)] := by
      simp
    rw [countType, hdecomp, List.countP_append, List.countP_append, hcS, hcC, h0]

/-- Witness for C3 at a concrete streaming session. -/
theorem c3_witness :
    ∃ mid,
      (finalEvents reqStream [mkTR ['h', 'i'] 1] decodeEmpty).map Chunk.stream =
        (startEvent ::
          (mid ++ [completeEvent (finalStop reqStream [mkTR ['h', 'i'] 1])])).map
          Chunk.stream ∧
      startEvent.event_type = EventType.start ∧
      (completeEvent (finalStop reqStream [mkTR ['h', 'i'] 1])).event_type =
        EventType.complete ∧
      (∀ e ∈ mid, e.event_type = EventType.progress) ∧
      countType EventType.start
        (startEvent ::
          (mid ++ [completeEvent (finalStop reqStream [mkTR ['h', 'i'] 1])])) = 1 ∧
      countType EventType.complete
        (startEvent ::
          (mid ++ [completeEvent (finalStop reqStream [mkTR ['h', 'i'] 1])])) = 1 :=
  c3_event_ordering reqStream sampleResolve sampleModel false [mkTR ['h', 'i'] 1]
    decodeEmpty
    ((finalEvents reqStream [mkTR ['h', 'i'] 1] decodeEmpty).map Chunk.stream)
    rfl rfl

/-- C10 (implicit claim): after the iterator is exhausted, one
success-status event is emitted per parsed tool call of the decoded
message even when tool-call mode was never entered, and in that case no
failure-status event is emitted. -/
theorem c10_success_without_mode (req : ChatCompletionRequest)
    (resolve : Str → Option Model) (loadedModel : Model) (locked : Bool)
    (gen : List TokenResult) (decode : List Nat → StopReason → CompletionMessage)
    (cs : List Chunk)
    (hs : req.stream = true)
    (hok : chatCompletion req resolve loadedModel locked gen decode = Except.ok cs)
    (hipy : (runLoop req gen).ipython = false) :
    cs = (finalEvents req gen decode).map Chunk.stream ∧
    countStatus ToolCallParseStatus.success (finalEvents req gen decode) =
      (decode (runLoop req gen).tokens (finalStop req gen)).tool_calls.length ∧
    countStatus ToolCallParseStatus.failure (finalEvents req gen decode) = 0 := by
  have hcs := (chatCompletion_ok req resolve loadedModel locked gen decode cs hok).1 hs
  refine ⟨hcs, ?_, ?_⟩
  · rw [finalEvents_eq, hipy, Bool.false_and, if_neg Bool.false_ne_true,
      List.append_nil]
    rw [countStatus, List.countP_append, List.countP_append]
    have hz : List.countP (isStatusEvent ToolCallParseStatus.success)
        (runLoop req gen).events = 0 := by
      have h := countStatus_runLoop_zero req gen ToolCallParseStatus.success hs
        (Or.inr rfl)
      rwa [countStatus] at h
    have hm : List.countP (isStatusEvent ToolCallParseStatus.success)
        ((decode (runLoop req gen).tokens (finalStop req gen)).tool_calls.map
          (fun tc => successEvent tc (finalStop req gen))) =
        (decode (runLoop req gen).tokens (finalStop req gen)).tool_calls.length := by
      have h := countSuccess_succ_list
        (decode (runLoop req gen).tokens (finalStop req gen)).tool_calls
        (finalStop req gen)
      rwa [countStatus] at h
    have hc : List.countP (isStatusEvent ToolCallParseStatus.success)
        [completeEvent (finalStop req gen)] = 0 := rfl
    rw [hz, hm, hc]
    omega
  · rw [finalEvents_eq, hipy, Bool.false_and, if_neg Bool.false_ne_true,
      List.append_nil]
    rw [countStatus, List.countP_append, List.countP_append]
    have hz : List.countP (isStatusEvent ToolCallParseStatus.failure)
        (runLoop req gen).events = 0 := by
      have h := countStatus_runLoop_zero req gen ToolCallParseStatus.failure hs
        (Or.inl rfl)
      rwa [countStatus] at h
    have hm : List.countP (isStatusEvent ToolCallParseStatus.failure)
        ((decode (runLoop req gen).tokens (finalStop req gen)).tool_calls.map
          (fun tc => successEvent tc (finalStop req gen))) = 0 := by
      have h := countStatus_succ_list_other ToolCallParseStatus.failure
        (fun hne => by cases hne)
        (decode (runLoop req gen).tokens (finalStop req gen)).tool_calls
        (finalStop req gen)
      rwa [countStatus] at h
    have hc : List.countP (isStatusEvent ToolCallParseStatus.failure)
        [completeEvent (finalStop req gen)] = 0 := rfl
    rw [hz, hm, hc]

/-- Witness for C10: one parsed tool call, sentinel never seen. -/
theorem c10_witness :
    countStatus ToolCallParseStatus.success
      (finalEvents reqStream [mkTR ['h'] 1] decodeOne) =
    (decodeOne (runLoop reqStream [mkTR ['h'] 1]).tokens
      (finalStop reqStream [mkTR ['h'] 1])).tool_calls.length :=
  (c10_success_without_mode reqStream sampleResolve sampleModel false
    [mkTR ['h'] 1] decodeOne
    ((finalEvents reqStream [mkTR ['h'] 1] decodeOne).map Chunk.stream)
    rfl rfl (by decide)).2.1

/-- C5: in a streaming session that entered tool-call mode, the
reconciliation events before the terminal event contain exactly one
failure-status event when the decode parsed zero tool calls and exactly
one success-status event per parsed tool call otherwise. -/
theorem c5_reconciliation (req : ChatCompletionRequest)
    (resolve : Str → Option Model) (loadedModel : Model) (locked : Bool)
    (gen : List TokenResult) (decode : List Nat → StopReason → CompletionMessage)
    (cs : List Chunk)
    (hs : req.stream = true)
    (hok : chatCompletion req resolve loadedModel locked gen decode = Except.ok cs)
    (hipy : (runLoop req gen).ipython = true) :
    ∃ mid, finalEvents req gen decode = mid ++ [completeEvent (finalStop req gen)] ∧
      countStatus ToolCallParseStatus.failure mid =
        (if (decode (runLoop req gen).tokens (finalStop req gen)).tool_calls.length = 0
         then 1 else 0) ∧
      countStatus ToolCallParseStatus.success mid =
        (decode (runLoop req gen).tokens (finalStop req gen)).tool_calls.length ∧
      cs = (finalEvents req gen decode).map Chunk.stream := by
  have hcs := (chatCompletion_ok req resolve loadedModel locked gen decode cs hok).1 hs
  refine ⟨(runLoop req gen).events ++
    (if (runLoop req gen).ipython &&
        (decode (runLoop req gen).tokens (finalStop req gen)).tool_calls.isEmpty
     then [failureEvent (finalStop req gen)] else []) ++
    ((decode (runLoop req gen).tokens (finalStop req gen)).tool_calls.map
      (fun tc => successEvent tc (finalStop req gen))), ?_, ?_, ?_, hcs⟩
  · rw [finalEvents_eq]
  · rw [countStatus, List.countP_append, List.countP_append]
    have hz : List.countP (isStatusEvent ToolCallParseStatus.failure)
        (runLoop req gen).events = 0 := by
      have h := countStatus_runLoop_zero req gen ToolCallParseStatus.failure hs
        (Or.inl rfl)
      rwa [countStatus] at h
    have hm : List.countP (isStatusEvent ToolCallParseStatus.failure)
        ((decode (runLoop req gen).tokens (finalStop req gen)).tool_calls.map
          (fun tc => successEvent tc (finalStop req gen))) = 0 := by
      have h := countStatus_succ_list_other ToolCallParseStatus.failure
        (fun hne => by cases hne)
        (decode (runLoop req gen).tokens (finalStop req gen)).tool_calls
        (finalStop req gen)
      rwa [countStatus] at h
    rw [hz, hm, hipy, Bool.true_and]
    cases hdec : (decode (runLoop req gen).tokens (finalStop req gen)).tool_calls with
    | nil => simp [isStatusEvent, failureEvent, List.countP_singleton]
    | cons a l => simp
  · rw [countStatus, List.countP_append, List.countP_append]
    have hz : List.countP (isStatusEvent ToolCallParseStatus.success)
        (runLoop req gen).events = 0 := by
      have h := countStatus_runLoop_zero req gen ToolCallParseStatus.success hs
        (Or.inr rfl)
      rwa [countStatus] at h
    have hif : List.countP (isStatusEvent ToolCallParseStatus.success)
        (if ((runLoop req gen).ipython &&
            (decode (runLoop req gen).tokens (finalStop req gen)).tool_calls.isEmpty)
         then [failureEvent (finalStop req gen)] else []) = 0 := by
      split <;> rfl
    have hm : List.countP (isStatusEvent ToolCallParseStatus.success)
        ((decode (runLoop req gen).tokens (finalStop req gen)).tool_calls.map
          (fun tc => successEvent tc (finalStop req gen))) =
        (decode (runLoop req gen).tokens (finalStop req gen)).tool_calls.length := by
      have h := countSuccess_succ_list
        (decode (runLoop req gen).tokens (finalStop req gen)).tool_calls
        (finalStop req gen)
      rwa [countStatus] at h
    rw [hz, hif, hm]
    omega

/-- Witness for C5: sentinel entered, decode parses nothing, one failure
event. -/
theorem c5_witness :
    ∃ mid, finalEvents reqStream [mkTR pythonTag 1] decodeEmpty =
        mid ++ [completeEvent (finalStop reqStream [mkTR pythonTag 1])] ∧
      countStatus ToolCallParseStatus.failure mid =
        (if (decodeEmpty (runLoop reqStream [mkTR pythonTag 1]).tokens
            (finalStop reqStream [mkTR pythonTag 1])).tool_calls.length = 0
         then 1 else 0) ∧
      countStatus ToolCallParseStatus.success mid =
        (decodeEmpty (runLoop reqStream [mkTR pythonTag 1]).tokens
          (finalStop reqStream [mkTR pythonTag 1])).tool_calls.length ∧
      (finalEvents reqStream [mkTR pythonTag 1] decodeEmpty).map Chunk.stream =
        (finalEvents reqStream [mkTR pythonTag 1] decodeEmpty).map Chunk.stream :=
  c5_reconciliation reqStream sampleResolve sampleModel false [mkTR pythonTag 1]
    decodeEmpty
    ((finalEvents reqStream [mkTR pythonTag 1] decodeEmpty).map Chunk.stream)
    rfl rfl (by decide)

/-- C6: the sentinel match is evaluated against the cumulative buffer
(also across fragment boundaries), the transition to tool-call mode is
reflected by exactly one started event when and only when it happened,
and the mode flag never reverts. -/
theorem c6_sentinel_detection (req : ChatCompletionRequest) (gen : List TokenResult) :
    ((runLoop req gen).ipython = true ↔
      ∃ i, i < gen.length ∧ pythonTag <+: textConcat (gen.take (i + 1))) ∧
    countStatus ToolCallParseStatus.started (runLoop req gen).events =
      (if (runLoop req gen).ipython then 1 else 0) ∧
    (∀ more, (runLoop req gen).ipython = true →
      (runLoop req (gen ++ more)).ipython = true) :=
  ⟨ipython_iff_match req gen, started_count_inv req gen,
   fun more h => by
    rw [runLoop_append]
    exact foldl_ipython req more _ h⟩

/-- Witness for C6: a sentinel split across two fragments is detected and
produces exactly one started event. -/
theorem c6_witness :
    (runLoop reqStream [mkTR "<|pyth".toList 1, mkTR "on_tag|>x".toList 2]).ipython
      = true ∧
    countStatus ToolCallParseStatus.started
      (runLoop reqStream [mkTR "<|pyth".toList 1, mkTR "on_tag|>x".toList 2]).events
      = 1 := by
  have h := c6_sentinel_detection reqStream
    [mkTR "<|pyth".toList 1, mkTR "on_tag|>x".toList 2]
  have h1 : (runLoop reqStream
      [mkTR "<|pyth".toList 1, mkTR "on_tag|>x".toList 2]).ipython = true :=
    h.1.mpr ⟨1, by decide, by decide⟩
  exact ⟨h1, by rw [h.2.1, h1]; rfl⟩

/-- C8: once a stop reason is set in a streaming session, no further
per-token progress event is emitted while tokens keep accumulating; in
particular the end-marker fragment itself emits nothing. -/
theorem c8_no_events_after_stop (req : ChatCompletionRequest)
    (gen more : List TokenResult) (hs : req.stream = true)
    (hstop : (runLoop req gen).stop_reason ≠ none) :
    (runLoop req (gen ++ more)).events = (runLoop req gen).events ∧
    (runLoop req (gen ++ more)).tokens =
      (runLoop req gen).tokens ++ more.map TokenResult.token ∧
    (runLoop req (gen ++ more)).stop_reason ≠ none ∧
    (∀ pre tr, tr.text = eotId ∨ tr.text = eomId →
      (runLoop req (pre ++ [tr])).events = (runLoop req pre).events) := by
  obtain ⟨he, hs'⟩ := foldl_after_stop req more (runLoop req gen)
    (runLoop_inv req gen) hstop
  refine ⟨by rw [runLoop_append]; exact he, ?_,
    by rw [runLoop_append]; exact hs', ?_⟩
  · rw [runLoop_append, foldl_tokens]
  · intro pre tr hm
    rw [runLoop_append]
    simp only [List.foldl_cons, List.foldl_nil]
    exact (processToken_marker req (runLoop req pre) tr (runLoop_inv req pre)
      hs hm).2

/-- Witness for C8: after an end-of-turn marker, a further fragment adds
its token but no event. -/
theorem c8_witness :
    (runLoop reqStream ([mkTR eotId 1] ++ [mkTR ['x'] 2])).events =
      (runLoop reqStream [mkTR eotId 1]).events ∧
    (runLoop reqStream ([mkTR eotId 1] ++ [mkTR ['x'] 2])).tokens =
      (runLoop reqStream [mkTR eotId 1]).tokens ++
        [mkTR ['x'] 2].map TokenResult.token :=
  ⟨(c8_no_events_after_stop reqStream [mkTR eotId 1] [mkTR ['x'] 2] rfl
      (by decide)).1,
   (c8_no_events_after_stop reqStream [mkTR eotId 1] [mkTR ['x'] 2] rfl
      (by decide)).2.1⟩


/-- C1 (counterexample to the claim as stated): in a non-streaming
session the end-of-turn marker does not set the stop reason — it stays
`out_of_tokens`. -/
theorem c1_counterexample :
    finalStop reqNoStream [mkTR eotId 5] = StopReason.out_of_tokens ∧
    StopReason.out_of_tokens ≠ StopReason.end_of_turn :=
  ⟨by decide, by decide⟩

/-- C1 (amended): in every streaming session an `<|eot_id|>` fragment
followed only by marker-free fragments resolves the stop reason to
`end_of_turn`, an `<|eom_id|>` fragment to `end_of_message`, a run with
no marker fragment defaults to `out_of_tokens`, and no emitted event
carries a marker as its text payload. -/
theorem c1_stream_stop_classification (req : ChatCompletionRequest)
    (gen : List TokenResult) (hs : req.stream = true) :
    ((∀ tr ∈ gen, tr.text ≠ eotId ∧ tr.text ≠ eomId) →
      finalStop req gen = StopReason.out_of_tokens) ∧
    (∀ pre tr post, gen = pre ++ tr :: post →
      (∀ tr' ∈ post, tr'.text ≠ eotId ∧ tr'.text ≠ eomId) →
      (tr.text = eotId → finalStop req gen = StopReason.end_of_turn) ∧
      (tr.text = eomId → finalStop req gen = StopReason.end_of_message)) ∧
    (∀ e ∈ (runLoop req gen).events, ∀ t : Str,
      (e.delta = Delta.text t ∨
        ∃ st, e.delta = Delta.toolCall (DeltaContent.str t) st) →
      t ≠ eotId ∧ t ≠ eomId) := by
  refine ⟨?_, ?_, ?_⟩
  · intro hnm
    have h := stop_const_of_no_marker req gen (initState req) hnm
    unfold finalStop runLoop
    rw [h]
    rfl
  · intro pre tr post hgen hnm
    subst hgen
    have hsplit : pre ++ tr :: post = (pre ++ [tr]) ++ post := by simp
    constructor
    · intro htr
      have h1 : (runLoop req (pre ++ [tr])).stop_reason =
          some StopReason.end_of_turn := by
        rw [runLoop_append]
        simp only [List.foldl_cons, List.foldl_nil]
        have hmark := (processToken_marker req (runLoop req pre) tr
          (runLoop_inv req pre) hs (Or.inl htr)).1
        rw [hmark, if_pos htr]
      have h2 : (runLoop req (pre ++ tr :: post)).stop_reason =
          some StopReason.end_of_turn := by
        rw [hsplit, runLoop_append,
          stop_const_of_no_marker req post (runLoop req (pre ++ [tr])) hnm, h1]
      unfold finalStop
      rw [h2]
      rfl
    · intro htr
      have hne : tr.text ≠ eotId := by
        rw [htr]
        decide
      have h1 : (runLoop req (pre ++ [tr])).stop_reason =
          some StopReason.end_of_message := by
        rw [runLoop_append]
        simp only [List.foldl_cons, List.foldl_nil]
        have hmark := (processToken_marker req (runLoop req pre) tr
          (runLoop_inv req pre) hs (Or.inr htr)).1
        rw [hmark, if_neg hne]
      have h2 : (runLoop req (pre ++ tr :: post)).stop_reason =
          some StopReason.end_of_message := by
        rw [hsplit, runLoop_append,
          stop_const_of_no_marker req post (runLoop req (pre ++ [tr])) hnm, h1]
      unfold finalStop
      rw [h2]
      rfl
  · intro e he t ht
    obtain ⟨es, hev, hl⟩ := foldl_events req gen (initState req)
    unfold runLoop at he
    rw [hev] at he
    rcases List.mem_append.mp he with h | h
    · have hse : e = startEvent := by
        simp only [initState, hs, if_pos] at h
        simpa using h
      subst hse
      rcases ht with ht | ⟨st, ht⟩
      · have hte : ([] : Str) = t := by
          simpa [startEvent] using ht
        rw [← hte]
        exact ⟨by decide, by decide⟩
      · simp [startEvent] at ht
    · exact (hl e h).2.2.2 t ht

/-- Witness for C1 (amended): a marker-free streaming run resolves to
`out_of_tokens`. -/
theorem c1_witness :
    finalStop reqStream [mkTR ['h', 'i'] 1] = StopReason.out_of_tokens :=
  (c1_stream_stop_classification reqStream [mkTR ['h', 'i'] 1] rfl).1 (by decide)

/-- C2 (counterexample to the claim as stated): a non-streaming session
that enters tool-call mode yields a per-token stream chunk before the
final response record. -/
theorem c2_counterexample :
    chatCompletion reqNoStream sampleResolve sampleModel false [mkTR pythonTag 7]
      decodeEmpty =
      Except.ok [Chunk.stream startedEvent,
        Chunk.response { content := [], tool_calls := [] } none] ∧
    Chunk.stream startedEvent ∈
      [Chunk.stream startedEvent,
       Chunk.response { content := [], tool_calls := [] } none] := by
  constructor
  · rfl
  · exact List.mem_cons_self _ _

/-- C2 (amended): in a non-streaming session the only possible per-token
stream chunk is the single tool-call-started event; the final record,
returned last, carries the decoded message and a logprob list that is
present if and only if logprobs were requested. -/
theorem c2_nonstream_output (req : ChatCompletionRequest)
    (resolve : Str → Option Model) (loadedModel : Model) (locked : Bool)
    (gen : List TokenResult) (decode : List Nat → StopReason → CompletionMessage)
    (cs : List Chunk)
    (hs : req.stream = false)
    (hok : chatCompletion req resolve loadedModel locked gen decode = Except.ok cs) :
    ((runLoop req gen).events = [] ∨ (runLoop req gen).events = [startedEvent]) ∧
    cs = (runLoop req gen).events.map Chunk.stream ++
      [Chunk.response (decode (runLoop req gen).tokens (finalStop req gen))
        (if req.logprobs then some (runLoop req gen).logprobs else none)] ∧
    ((if req.logprobs then some (runLoop req gen).logprobs else none) = none ↔
      req.logprobs = false) := by
  have hcs := (chatCompletion_ok req resolve loadedModel locked gen decode cs hok).2 hs
  refine ⟨?_, hcs, ?_⟩
  · rcases nonstream_events req gen hs with ⟨h, _⟩ | ⟨h, _⟩
    exacts [Or.inl h, Or.inr h]
  · by_cases hl : req.logprobs = true
    · simp [hl]
    · simp [hl]

/-- Witness for C2 (amended) at a concrete marker-free non-streaming
session. -/
theorem c2_witness :
    (runLoop reqNoStream [mkTR ['h'] 1]).events = [] ∨
      (runLoop reqNoStream [mkTR ['h'] 1]).events = [startedEvent] :=
  (c2_nonstream_output reqNoStream sampleResolve sampleModel false [mkTR ['h'] 1]
    decodeEmpty
    [Chunk.response { content := [], tool_calls := [] } none] rfl rfl).1

/-- C7 (counterexample to the claim as stated): the buffer remainder left
after stripping the sentinel ("abc") is never used as any later
fragment's emitted content — the next progress event carries only that
fragment's own text. -/
theorem c7_counterexample :
    finalEvents reqStream genTagRemainder decodeEmpty =
      [startEvent, startedEvent,
       { event_type := EventType.progress
         delta := Delta.toolCall (DeltaContent.str ['d', 'e', 'f'])
           ToolCallParseStatus.in_progress
         stop_reason := none },
       failureEvent StopReason.out_of_tokens,
       completeEvent StopReason.out_of_tokens] ∧
    ∀ e ∈ finalEvents reqStream genTagRemainder decodeEmpty,
      deltaContentStr e.delta ≠ some ['a', 'b', 'c'] ∧
      deltaContentStr e.delta ≠ some ['a', 'b', 'c', 'd', 'e', 'f'] := by
  constructor
  · decide
  · decide

/-- C7 (amended): entering tool-call mode emits exactly one progress
event carrying a started-status tool-call delta with empty content and
strips the sentinel from the buffer once; the remainder stays in the
buffer and is not emitted, and each subsequent fragment's progress event
carries that fragment's own text. -/
theorem c7_tool_call_started (req : ChatCompletionRequest) :
    (∀ s tr, s.ipython = false →
      pythonTag.isPrefixOf (s.buffer ++ tr.text) = true →
      processToken req s tr = tagStep s tr ∧
      (processToken req s tr).events = s.events ++ [startedEvent] ∧
      (processToken req s tr).buffer =
        (s.buffer ++ tr.text).drop pythonTag.length) ∧
    (∀ s tr, req.stream = true → s.ipython = true → s.stop_reason = none →
      tr.text ≠ eotId → tr.text ≠ eomId →
      (processToken req s tr).events = s.events ++
        [{ event_type := EventType.progress
           delta := Delta.toolCall (DeltaContent.str tr.text)
             ToolCallParseStatus.in_progress
           stop_reason := none }]) := by
  constructor
  · intro s tr hip hpre
    have heq : processToken req s tr = tagStep s tr := by
      unfold processToken
      rw [if_pos (by rw [hip, hpre]; rfl)]
    exact ⟨heq, by rw [heq]; rfl, by rw [heq]; rfl⟩
  · intro s tr hstream hip hstop h1 h2
    have hguard : (!s.ipython && pythonTag.isPrefixOf (s.buffer ++ tr.text))
        = false := by
      rw [hip]
      rfl
    have hcs : classifyStop s.stop_reason tr.text = none := by
      simp only [classifyStop, h1, h2, if_neg]
      exact hstop
    unfold processToken
    rw [hguard]
    simp only [Bool.false_eq_true, if_false]
    rw [if_neg (by rw [hstream]; decide)]
    simp [streamStep, hcs, hip, classifyText, h1, h2]

/-- Witness for C7 (amended): the sentinel fragment itself triggers the
started event. -/
theorem c7_witness :
    (processToken reqStream (initState reqStream) (mkTR pythonTag 1)).events =
      (initState reqStream).events ++ [startedEvent] :=
  ((c7_tool_call_started reqStream).1 (initState reqStream) (mkTR pythonTag 1)
    rfl (by decide)).2.1

end LlamaStack
